import Mathlib

/-!
Verification of the ale.aos collection (Alcatel-Lucent AOS network plugins)
against its design specification.

The development shallowly embeds the Python sources:
  * src/plugins/cliconf/aos.py             (class Cliconf)
  * src/plugins/modules/aos_command.py     (parse_commands, main loop)
  * src/plugins/module_utils/network/aos/aos.py
  * src/plugins/module_utils/network/aos/utils/utils.py

External collaborators (NetworkConfig parsing and diffing, the device
transport, json.loads) are passed in as function parameters, so every theorem
quantifies over their behaviour.  Python string primitives (split, strip,
startswith, endswith, the `in` operator, int(), str.join) are modelled by
executable functions over character lists so that all witnesses evaluate by
`decide`.
-/

namespace AleAos

/-! Python string primitives, modelled over the underlying character lists. -/

/-- Character-list test: `n` occurs at the front of `h` (Python startswith). -/
def chIsPre : List Char → List Char → Bool
  | [], _ => true
  | _ :: _, [] => false
  | a :: as, b :: bs => (a = b) && chIsPre as bs

/-- Character-list test: `n` occurs somewhere inside `h` (Python `in`). -/
def chContains (n : List Char) : List Char → Bool
  | [] => n.isEmpty
  | b :: bs => chIsPre n (b :: bs) || chContains n bs

/-- Python `needle in hay` for strings. -/
def pyIn (needle hay : String) : Bool :=
  chContains needle.data hay.data

/-- Python `s.startswith(p)`. -/
def pyStartsWith (s p : String) : Bool :=
  chIsPre p.data s.data

/-- Python `s.endswith(t)`: `t` reversed is at the front of `s` reversed. -/
def pyEndsWith (s t : String) : Bool :=
  chIsPre t.data.reverse s.data.reverse

/-- Python `s.strip()`: drop whitespace from both ends. -/
def pyStrip (s : String) : String :=
  ⟨((s.data.dropWhile Char.isWhitespace).reverse.dropWhile Char.isWhitespace).reverse⟩

/-- Splitting a character list on a separator character; mirrors Python
`str.split(sep)` for a one-character separator (always at least one group). -/
def chSplit (sep : Char) : List Char → List (List Char)
  | [] => [[]]
  | c :: rest =>
    let r := chSplit sep rest
    if c = sep then [] :: r
    else
      match r with
      | [] => [[c]]
      | g :: gs => (c :: g) :: gs

/-- Python `s.split(sep)` for a one-character separator. -/
def pySplit (sep : Char) (s : String) : List String :=
  (chSplit sep s.data).map (fun l => ⟨l⟩)

/-- Python `sep.join(parts)`. -/
def pyJoin (sep : String) : List String → String
  | [] => ""
  | [x] => x
  | x :: y :: rest => x ++ sep ++ pyJoin sep (y :: rest)

/-- Digit-string value; `none` when empty or a non-digit occurs. -/
def chDigitsGo : List Char → Nat → Option Nat
  | [], acc => some acc
  | c :: rest, acc =>
    if '0' ≤ c ∧ c ≤ '9' then chDigitsGo rest (acc * 10 + (c.toNat - 48)) else none

/-- Digit-string value of a nonempty all-digit character list. -/
def chDigits : List Char → Option Nat
  | [] => none
  | l => chDigitsGo l 0

/-- Python `int(s)`: surrounding whitespace is ignored, an optional sign is
followed by at least one digit; raises (here: `none`) otherwise. -/
def pyInt (s : String) : Option Int :=
  match (pyStrip s).data with
  | '-' :: rest => (chDigits rest).map (fun n => -(n : Int))
  | '+' :: rest => (chDigits rest).map (fun n => (n : Int))
  | t => (chDigits t).map (fun n => (n : Int))

/-- Python truthiness of an optional string (None and "" are falsy). -/
def pyTruthy : Option String → Bool
  | none => false
  | some s => s ≠ ""

/-- Python `"%s" % v` for an optional string: None renders as "None". -/
def pyShowOpt : Option String → String
  | some s => s
  | none => "None"

/-! Facts about the string primitives needed by the theorems. -/

theorem chIsPre_refl (l : List Char) : chIsPre l l = true := by
  induction l with
  | nil => rfl
  | cons a as ih => simp [chIsPre, ih]

theorem chContains_self (l : List Char) : chContains l l = true := by
  cases l with
  | nil => rfl
  | cons b bs => simp [chContains, chIsPre_refl]

theorem chContains_append (pre t : List Char) : chContains t (pre ++ t) = true := by
  induction pre with
  | nil => simpa using chContains_self t
  | cons c cs ih => simp [chContains, ih]

theorem chIsPre_iff_append (n : List Char) :
    ∀ h : List Char, chIsPre n h = true ↔ ∃ r, h = n ++ r := by
  induction n with
  | nil =>
    intro h
    simp [chIsPre]
  | cons a as ih =>
    intro h
    cases h with
    | nil =>
      simp [chIsPre]
    | cons b bs =>
      constructor
      · intro hp
        have hab : a = b ∧ chIsPre as bs = true := by
          simpa [chIsPre, Bool.and_eq_true, decide_eq_true_eq] using hp
        obtain ⟨r, hr⟩ := (ih bs).mp hab.2
        exact ⟨r, by simp [hab.1, hr]⟩
      · rintro ⟨r, hr⟩
        have hb : b = a := by
          have := congrArg (fun l => l.headD ' ') hr
          simpa using this
        have hbs : bs = as ++ r := by
          have := congrArg List.tail hr
          simpa using this
        have : chIsPre as bs = true := (ih bs).mpr ⟨r, hbs⟩
        simp [chIsPre, hb, this]

theorem chContains_of_suffix (t h : List Char)
    (hs : chIsPre t.reverse h.reverse = true) : chContains t h = true := by
  obtain ⟨r, hr⟩ := (chIsPre_iff_append t.reverse h.reverse).mp hs
  have : h = r.reverse ++ t := by
    have := congrArg List.reverse hr
    simpa [List.reverse_append] using this
  rw [this]
  exact chContains_append r.reverse t

theorem pyIn_of_pyEndsWith (s t : String) (h : pyEndsWith s t = true) :
    pyIn t s = true :=
  chContains_of_suffix t.data s.data h

theorem pyIn_append_self (s t : String) : pyIn t (s ++ t) = true := by
  have : (s ++ t).data = s.data ++ t.data := rfl
  simpa [pyIn, this] using chContains_append s.data t.data

/-! Embedding of src/plugins/module_utils/network/aos/utils/utils.py. -/

namespace AosUtils

/-- Python ascending insertion into a sorted list; building block of the model
of `list.sort()` on integers. -/
def insertAsc (x : Int) : List Int → List Int
  | [] => [x]
  | y :: ys => if x ≤ y then x :: y :: ys else y :: insertAsc x ys

/-- Model of Python `list.sort()` on integers (ascending). -/
def pySort (l : List Int) : List Int :=
  l.foldr insertAsc []

/-- One probing step of CPython set insertion: check slot `i mod 8`; an empty
slot receives the value, an equal key is a duplicate (no change), otherwise
probe at `(5*i + 1 + perturb >> 5) mod 8` with the shifted perturb, as in
the CPython source setobject.c for an 8-slot table. -/
def setAddGo (x : Int) : Nat → Nat → Nat → List (Option Int) → List (Option Int)
  | 0, _, _, t => t
  | fuel + 1, i, perturb, t =>
    match t.getD (i % 8) none with
    | none => t.set (i % 8) (some x)
    | some y =>
      if y = x then t
      else setAddGo x fuel ((5 * (i % 8) + 1 + perturb / 32) % 8) (perturb / 32) t

/-- CPython set insertion of a nonnegative integer into an 8-slot table:
hash(x) = x, first slot x mod 8. -/
def cpySetInsert (t : List (Option Int)) (x : Int) : List (Option Int) :=
  setAddGo x 64 (x.toNat % 8) x.toNat t

/-- Model of CPython `list(set(xs))` for nonnegative integers, valid while the
table stays at its initial 8 slots (at most 4 distinct elements, so no
resize): elements are inserted in list order and iteration yields the table
slots in ascending slot order. -/
def cpySetList (xs : List Int) : List Int :=
  (xs.foldl cpySetInsert (List.replicate 8 none)).filterMap id

/-- Embedding of numerical_sort (utils.py lines 40-47): the list is sorted in
place and then passed through `list(set(...))`, whose iteration order is the
hash-table slot order, not the sorted order. -/
def numerical_sort (l : List Int) : List Int :=
  cpySetList (pySort l)

/-- Inclusive Python `range(a, b + 1)` as a list of integers. -/
def pyRange (a b : Int) : List Int :=
  (List.range (b + 1 - a).toNat).map (fun k => a + (k : Int))

/-- Loop body of vlan_range_to_list (utils.py lines 26-35): a part equal to
"none" stops processing; a part containing "-" is split into exactly two
bounds fed to range; any other part is a single integer.  `none` models the
ValueError raised by int() or by unpacking a split with more than two
pieces. -/
def parseVlans : List String → Option (List Int)
  | [] => some []
  | part :: rest =>
    if part = "none" then some []
    else if pyIn "-" part then
      match pySplit '-' part with
      | [a, b] => do
        let ai ← pyInt a
        let bi ← pyInt b
        let rl ← parseVlans rest
        pure (pyRange ai bi ++ rl)
      | _ => none
    else do
      let ai ← pyInt part
      let rl ← parseVlans rest
      pure (ai :: rl)

/-- Embedding of vlan_range_to_list (utils.py lines 21-37) for a string
argument: an empty string is falsy and yields [] directly; otherwise the
string is split on "," and the collected integers are passed through
numerical_sort. -/
def vlan_range_to_list (vlans : String) : Option (List Int) :=
  if vlans = "" then some []
  else (parseVlans (pySplit ',' vlans)).map numerical_sort

end AosUtils

/-! Embedding of src/plugins/cliconf/aos.py (class Cliconf).  The device
transport (CliconfBase.send_command), the NetworkConfig tokenizer and differ,
and json.loads are external collaborators and appear as function
parameters. -/

namespace Cliconf

/-- The single-quote character, built from its code point so the embedding can
spell the exact Python error messages. -/
def sq : String :=
  ⟨[Char.ofNat 39]⟩

/-- Enumerations of get_option_values (aos.py lines 294-300). -/
def option_values_format : List String := ["text", "json"]

/-- Valid diff_match values (aos.py line 297). -/
def option_values_diff_match : List String := ["line", "strict", "exact", "none"]

/-- Valid diff_replace values (aos.py line 298). -/
def option_values_diff_replace : List String := ["line", "block", "config"]

/-- Valid output values (aos.py line 299). -/
def option_values_output : List String := ["text", "json"]

/-- Entry of get_device_operations (aos.py line 290): the platform reports
that it does not support generating diffs. -/
def supports_generate_diff : Bool := false

/-- Error message for a bad output value (aos.py lines 320-323). -/
def output_err_msg (o : String) : String :=
  sq ++ "output" ++ sq ++ " value " ++ o ++ " is invalid. Valid values are "
    ++ pyJoin "," option_values_output

/-- Error message for a bad format value (aos.py lines 91-94). -/
def format_err_msg (f : String) : String :=
  sq ++ "format" ++ sq ++ " value " ++ f ++ " is invalid. Valid values are "
    ++ pyJoin "," option_values_format

/-- Error message for a bad diff_match value (aos.py lines 209-212,
including the "in invalid" typo of the source). -/
def match_err_msg (m : String) : String :=
  sq ++ "match" ++ sq ++ " value " ++ m ++ " in invalid, valid values are "
    ++ pyJoin ", " option_values_diff_match

/-- Error message for a bad diff_replace value (aos.py lines 215-218). -/
def replace_err_msg (r : String) : String :=
  sq ++ "replace" ++ sq ++ " value " ++ r ++ " in invalid, valid values are "
    ++ pyJoin ", " option_values_diff_replace

/-- Embedding of Cliconf._get_command_with_output (aos.py lines 317-331):
`version` is an optional string and Python renders None as the text "None"
when interpolating it. -/
def get_command_with_output (command output : String) (version : Option String) :
    Except String String :=
  if output ∉ option_values_output then
    Except.error (output_err_msg output)
  else
    let cmd :=
      if output = "json" ∧ pyEndsWith command "| json" = false then command ++ " | json"
      else command
    let cmd2 :=
      if version ≠ some "latest" ∧ pyIn "| json" cmd = true then
        cmd ++ " version " ++ pyShowOpt version
      else cmd
    Except.ok cmd2

/-- One command record of run_commands: text plus the output and version keys
popped from the mapping (aos.py lines 160-165). -/
structure RCmd where
  command : String
  output : Option String := none
  version : Option String := none

/-- Effective command text sent for one record (aos.py lines 166-171): a
truthy output routes through _get_command_with_output, which may raise. -/
def effCommand (c : RCmd) : Except String String :=
  if pyTruthy c.output = true then
    get_command_with_output c.command (c.output.getD "") c.version
  else Except.ok c.command

/-- Response post-processing of run_commands (aos.py lines 181-187): the text
is fed to json.loads (modelled by the `loads` parameter) and kept as the
parsed value on success, otherwise stripped. -/
def postprocess {α : Type} (loads : String → Option α) (out : String) : α ⊕ String :=
  match loads out with
  | some v => Sum.inl v
  | none => Sum.inr (pyStrip out)

/-- Handling of a single command inside run_commands (aos.py lines 160-187):
the pair returned is the list of transport invocations made for this command
and either the processed response or the propagated error.  A connection
failure re-raises when check_rc, else its text is used as the output. -/
def runOne {α : Type} (send : String → Except String String)
    (loads : String → Option α) (check_rc : Bool) (c : RCmd) :
    List String × Except String (α ⊕ String) :=
  match effCommand c with
  | Except.error e => ([], Except.error e)
  | Except.ok s =>
    match send s with
    | Except.error e =>
      if check_rc then ([s], Except.error e)
      else ([s], Except.ok (postprocess loads e))
    | Except.ok out => ([s], Except.ok (postprocess loads out))

/-- Embedding of Cliconf.run_commands (aos.py lines 156-188): commands are
processed in order; the first component collects every transport invocation
actually attempted, the second is the response list or the first propagated
error. -/
def run_commands {α : Type} (send : String → Except String String)
    (loads : String → Option α) (check_rc : Bool) :
    List RCmd → List String × Except String (List (α ⊕ String))
  | [] => ([], Except.ok [])
  | c :: rest =>
    match runOne send loads check_rc c with
    | (log, Except.error e) => (log, Except.error e)
    | (log, Except.ok r) =>
      let t := run_commands send loads check_rc rest
      (log ++ t.1, Except.map (fun rs => r :: rs) t.2)

/-- Result of get_diff: whether the external difference engine was consulted,
and the dumped config_diff text (aos.py lines 199-242). -/
structure DiffOut where
  compared : Bool
  config_diff : String

/-- Embedding of Cliconf.get_diff (aos.py lines 190-242).  The external
NetworkConfig collaborators appear as parameters: `load` tokenizes the
candidate text into its ordered items, `difference` computes
candidate_obj.difference(running_obj, path, match, replace) from the
candidate items and the running text, and `dumps` serializes items.  The
missing-candidate guard of line 203 is conjoined with
supports_generate_diff, as in the source. -/
def get_diff (load : Option String → List String)
    (difference : List String → String → Option (List String) → Option String →
      String → String → List String)
    (dumps : List String → String)
    (candidate running : Option String) (diff_match : String)
    (diff_ignore_lines : Option (List String)) (path : Option String)
    (diff_replace : String) : Except String DiffOut :=
  if candidate = none ∧ supports_generate_diff = true then
    Except.error "candidate configuration is required to generate diff"
  else if diff_match ∉ option_values_diff_match then
    Except.error (match_err_msg diff_match)
  else if diff_replace ∉ option_values_diff_replace then
    Except.error (replace_err_msg diff_replace)
  else
    let items := load candidate
    if pyTruthy running = true ∧ diff_match ≠ "none" ∧ diff_replace ≠ "config" then
      let objs := difference items (running.getD "") diff_ignore_lines path
        diff_match diff_replace
      Except.ok ⟨true, if objs.isEmpty then "" else dumps objs⟩
    else
      Except.ok ⟨false, if items.isEmpty then "" else dumps items⟩

/-- Embedding of Cliconf.get_config (aos.py lines 88-108): the returned pair
is the exact command string issued to the transport and the transport answer,
which the source returns without modification. -/
def get_config (send : String → String) (source : String) (flags : List String)
    (format : String) : Except String (String × String) :=
  if format ∉ option_values_format then
    Except.error (format_err_msg format)
  else if source ≠ "running" ∧ source ≠ "startup" then
    Except.error ("fetching configuration from " ++ source ++ " is not supported")
  else
    let base :=
      if source = "running" then "show configuration snapshot"
      else "cat working/vcsetup.cfg"
    let cmd := base ++ " "
    let cmd2 := if format ≠ "" ∧ format ≠ "text" then cmd ++ "| " ++ format ++ " " else cmd
    let cmd3 := pyStrip (cmd2 ++ pyJoin " " flags)
    Except.ok (cmd3, send cmd3)

end Cliconf

/-! Embedding of src/plugins/modules/aos_command.py: the check-mode command
filter (parse_commands, lines 383-393) and the retry loop of main (lines
418-435).  The device transport is an attempt-indexed response function; a
netcommon Conditional is its raw source text plus its evaluation on a
response batch. -/

namespace AosCommand

/-- A parsed wait_for conditional: raw source text and its (pure) evaluation
against the response batch of the current attempt. -/
structure Conditional where
  raw : String
  eval : List String → Bool

/-- A transformed command record of the module; only the command text matters
to parse_commands. -/
structure ModCmd where
  command : String

/-- Warning recorded for a command dropped in check mode (aos_command.py
lines 388-391). -/
def warnFor (c : ModCmd) : String :=
  "Only show commands are supported when using check mode, not executing "
    ++ c.command

/-- The check-mode filtering loop of parse_commands (aos_command.py lines
386-392): iterate over a snapshot of the list, drop every command that does
not start with "show" and record one warning for it, in scan order. -/
def parse_commands_loop : List ModCmd → List ModCmd × List String
  | [] => ([], [])
  | c :: rest =>
    let t := parse_commands_loop rest
    if pyStartsWith c.command "show" then (c :: t.1, t.2)
    else (t.1, warnFor c :: t.2)

/-- Embedding of parse_commands (aos_command.py lines 383-393): outside check
mode the command list passes through untouched and no warning is recorded. -/
def parse_commands (check_mode : Bool) (commands : List ModCmd) :
    List ModCmd × List String :=
  if check_mode then parse_commands_loop commands else (commands, [])

/-- One pass over the conditionals for one response batch (aos_command.py
lines 420-425): with match "any" a single true conditional clears the whole
pending set; any other match value removes exactly the conditionals that
evaluate true on this batch. -/
def stepConds (matchP : String) (rs : List String) (conds : List Conditional) :
    List Conditional :=
  if matchP = "any" then
    if conds.any (fun c => c.eval rs) then [] else conds
  else conds.filter (fun c => !(c.eval rs))

/-- The while loop of main (aos_command.py lines 418-429), with the number of
remaining iterations (retries + 1) as fuel: each iteration runs the command
batch (`send` gives the responses of attempt number a), processes the pending
conditionals and stops when the pending set is empty.  Returns the number of
attempts performed and the final pending set. -/
def execLoop (send : Nat → List String) (matchP : String) :
    Nat → Nat → List Conditional → Nat × List Conditional
  | 0, attempt, conds => (attempt, conds)
  | fuel + 1, attempt, conds =>
    let conds2 := stepConds matchP (send attempt) conds
    if conds2.isEmpty then (attempt + 1, conds2)
    else execLoop send matchP fuel (attempt + 1) conds2

/-- Terminal outcome of main: success, or fail_json with the fixed message
and the raw texts of the unmet conditionals (aos_command.py lines 430-435).
The attempt count performed is carried in both cases. -/
inductive MainOutcome where
  | success : Nat → MainOutcome
  | failed : Nat → String → List String → MainOutcome

/-- Fixed failure message of main (aos_command.py line 432). -/
def unsatMsg : String :=
  "One or more conditional statements have not been satisfied"

/-- Embedding of the tail of main (aos_command.py lines 418-435): run the
retry loop with retries + 1 available iterations, then exit_json on an empty
pending set or fail_json with the raw unmet conditionals. -/
def mainRun (send : Nat → List String) (matchP : String)
    (conds : List Conditional) (retries : Nat) : MainOutcome :=
  let r := execLoop send matchP (retries + 1) 0 conds
  if r.2.isEmpty then MainOutcome.success r.1
  else MainOutcome.failed r.1 unsatMsg (r.2.map Conditional.raw)

/-- Concrete transport for the two-conditional scenario: attempt a returns
a + 1 copies of "r". -/
def csendA : Nat → List String := fun n => List.replicate (n + 1) "r"

/-- Conditional true from the first attempt on (some response exists). -/
def condTrue0 : Conditional := ⟨"result[0] contains r", fun rs => decide (0 < rs.length)⟩

/-- Conditional true on the second attempt only (exactly two responses). -/
def condTrue1 : Conditional := ⟨"result[1] contains r", fun rs => decide (rs.length = 2)⟩

/-- Conditional that never evaluates true. -/
def condNever : Conditional := ⟨"result[0] contains z", fun _ => false⟩

/-- Constant transport for the always-false scenario. -/
def csendB : Nat → List String := fun _ => ["out"]

end AosCommand

end AleAos

namespace AleAos

theorem string_data_append (a b : String) : (a ++ b).data = a.data ++ b.data := rfl

theorem pyIn_json_appended (cmd : String) : pyIn "| json" (cmd ++ " | json") = true := by
  have hd : (cmd ++ " | json").data = (cmd.data ++ [' ']) ++ "| json".data := by
    rw [string_data_append]
    simp
  show chContains "| json".data (cmd ++ " | json").data = true
  rw [hd]
  exact chContains_append _ _

/-- C1: the spec says get_diff with an absent candidate fails with an
InvalidInput error before any comparison; the code guards the check with
device_operations["supports_generate_diff"], which get_device_operations
hardcodes to False, so get_diff(candidate=None) sails past the guard and
returns an ordinary result built from the missing candidate — for every
behaviour of the external NetworkConfig collaborators. -/
theorem get_diff_missing_candidate_not_rejected
    (load : Option String → List String)
    (difference : List String → String → Option (List String) → Option String →
      String → String → List String)
    (dumps : List String → String) :
    Cliconf.get_diff load difference dumps none none "line" none none "line"
      = Except.ok ⟨false, if (load none).isEmpty then "" else dumps (load none)⟩ := by
  rfl

/-- C2: get_diff with replace policy "config" (and likewise with match policy
"none", or when no running configuration is supplied) returns the dump of all
items of the candidate configuration, tagged compared = false, with the
external difference engine never consulted (the result is the same for every
difference function); in particular diffing a candidate against itself under
replace "config" returns the full candidate, not an empty result. -/
theorem get_diff_config_replace_returns_candidate
    (load : Option String → List String)
    (difference : List String → String → Option (List String) → Option String →
      String → String → List String)
    (dumps : List String → String)
    (cand : String) (running : Option String) (m r : String)
    (ig : Option (List String)) (path : Option String)
    (hm : m ∈ Cliconf.option_values_diff_match)
    (hr : r ∈ Cliconf.option_values_diff_replace) :
    (Cliconf.get_diff load difference dumps (some cand) running m ig path "config"
      = Except.ok ⟨false,
          if (load (some cand)).isEmpty then "" else dumps (load (some cand))⟩)
    ∧ (Cliconf.get_diff load difference dumps (some cand) running "none" ig path r
      = Except.ok ⟨false,
          if (load (some cand)).isEmpty then "" else dumps (load (some cand))⟩)
    ∧ (Cliconf.get_diff load difference dumps (some cand) none m ig path r
      = Except.ok ⟨false,
          if (load (some cand)).isEmpty then "" else dumps (load (some cand))⟩) := by
  refine ⟨?_, ?_, ?_⟩
  · simp [Cliconf.get_diff, hm, Cliconf.option_values_diff_replace]
  · simp [Cliconf.get_diff, hr, Cliconf.option_values_diff_match]
  · simp [Cliconf.get_diff, hm, hr, pyTruthy]

/-- C2 witness: a concrete tokenizer (newline split), serializer (newline
join) and a difference engine that would be visible in the output if it were
ever consulted; diffing the two-line candidate against itself with replace
"config" returns the candidate text itself, which is not empty. -/
theorem get_diff_config_replace_returns_candidate_witness :
    Cliconf.get_diff (fun o => pySplit (Char.ofNat 10) (o.getD ""))
        (fun _ _ _ _ _ _ => ["NEVER"]) (pyJoin "\n")
        (some "vlan 10\nvlan 20") (some "vlan 10\nvlan 20") "line" none none "config"
      = Except.ok ⟨false, "vlan 10\nvlan 20"⟩
    ∧ ("vlan 10\nvlan 20" : String) ≠ "" := by
  refine ⟨?_, by decide⟩
  exact (get_diff_config_replace_returns_candidate
    (fun o => pySplit (Char.ofNat 10) (o.getD ""))
    (fun _ _ _ _ _ _ => ["NEVER"]) (pyJoin "\n")
    "vlan 10\nvlan 20" (some "vlan 10\nvlan 20") "line" "line" none none
    (by decide) (by decide)).1

/-- C6 counterexample: a command whose output is "text" is claimed to be sent
unchanged, but when the command already contains the literal "| json" and the
version is not "latest", _get_command_with_output appends a version suffix to
it. -/
theorem get_command_with_output_text_changed :
    Cliconf.get_command_with_output "show running-config | json" "text" (some "1")
      = Except.ok "show running-config | json version 1"
    ∧ ("show running-config | json version 1" : String) ≠ "show running-config | json" := by
  exact ⟨rfl, by decide⟩

/-- C6 amended: when output is "json" and the command does not already end
with "| json", the string " | json" is appended, and a " version v" suffix
follows exactly when the version differs from "latest"; a command with output
"text" is sent unchanged unless it already contains "| json" and the version
differs from "latest", in which case only the version suffix is appended. -/
theorem get_command_with_output_spec (cmd : String) (v : Option String) :
    (pyEndsWith cmd "| json" = false → v ≠ some "latest" →
      Cliconf.get_command_with_output cmd "json" v
        = Except.ok (cmd ++ " | json" ++ " version " ++ pyShowOpt v))
    ∧ (pyEndsWith cmd "| json" = false → v = some "latest" →
      Cliconf.get_command_with_output cmd "json" v = Except.ok (cmd ++ " | json"))
    ∧ (v = some "latest" ∨ pyIn "| json" cmd = false →
      Cliconf.get_command_with_output cmd "text" v = Except.ok cmd)
    ∧ (v ≠ some "latest" → pyIn "| json" cmd = true →
      Cliconf.get_command_with_output cmd "text" v
        = Except.ok (cmd ++ " version " ++ pyShowOpt v)) := by
  refine ⟨?_, ?_, ?_, ?_⟩
  · intro hj hv
    simp [Cliconf.get_command_with_output, Cliconf.option_values_output,
      hj, hv, pyIn_json_appended]
  · intro hj hv
    simp [Cliconf.get_command_with_output, Cliconf.option_values_output, hj, hv]
  · intro hv
    cases hv with
    | inl h => simp [Cliconf.get_command_with_output, Cliconf.option_values_output, h]
    | inr h => simp [Cliconf.get_command_with_output, Cliconf.option_values_output, h]
  · intro hv hj
    simp [Cliconf.get_command_with_output, Cliconf.option_values_output, hv, hj]

/-- C6 witness: concrete instances of the amended statement — the json output
with a non-latest version appends both suffixes, and a plain text command
without "| json" passes through unchanged. -/
theorem get_command_with_output_spec_witness :
    Cliconf.get_command_with_output "show vlan" "json" (some "1")
      = Except.ok "show vlan | json version 1"
    ∧ Cliconf.get_command_with_output "show vlan" "text" (some "latest")
      = Except.ok "show vlan" := by
  constructor
  · exact ((get_command_with_output_spec "show vlan" (some "1")).1
      (by decide) (by decide)).trans (by rfl)
  · exact (get_command_with_output_spec "show vlan" (some "latest")).2.2.1 (Or.inl rfl)

/-- C9 counterexample: get_config(source="startup") is claimed to return the
transport text minus trailing whitespace, but the source returns
send_command(cmd) without modification: a transport answer with a trailing
blank and newline comes back verbatim, not stripped. -/
theorem get_config_startup_not_stripped :
    Cliconf.get_config (fun _ => "snapshot \n") "startup" [] "text"
      = Except.ok ("cat working/vcsetup.cfg", "snapshot \n")
    ∧ ("snapshot \n" : String) ≠ "snapshot" := by
  exact ⟨rfl, by decide⟩

/-- C9 amended: get_config with source "startup" and empty flags issues
exactly the fixed command "cat working/vcsetup.cfg" with nothing appended and
returns the transport answer verbatim (no whitespace removed); a source value
outside running/startup fails with the not-supported ValueError. -/
theorem get_config_source_behaviour (send : String → String) (src : String)
    (hsrc : src ≠ "running" ∧ src ≠ "startup") :
    Cliconf.get_config send "startup" [] "text"
      = Except.ok ("cat working/vcsetup.cfg", send "cat working/vcsetup.cfg")
    ∧ Cliconf.get_config send src [] "text"
      = Except.error ("fetching configuration from " ++ src ++ " is not supported") := by
  constructor
  · rfl
  · simp [Cliconf.get_config, Cliconf.option_values_format, hsrc.1, hsrc.2]

/-- C9 witness: the amended statement at a concrete transport and the
unsupported source value "candidate". -/
theorem get_config_source_behaviour_witness :
    Cliconf.get_config (fun _ => "RAW \n") "startup" [] "text"
      = Except.ok ("cat working/vcsetup.cfg", "RAW \n")
    ∧ Cliconf.get_config (fun _ => "RAW \n") "candidate" [] "text"
      = Except.error "fetching configuration from candidate is not supported" := by
  have h := get_config_source_behaviour (fun _ => "RAW \n") "candidate"
    ⟨by decide, by decide⟩
  exact ⟨h.1, h.2⟩

theorem run_commands_append {α : Type} (send : String → Except String String)
    (loads : String → Option α) (crc : Bool) :
    ∀ (pre rest : List Cliconf.RCmd) (lp : List String) (rp : List (α ⊕ String)),
      Cliconf.run_commands send loads crc pre = (lp, Except.ok rp) →
      Cliconf.run_commands send loads crc (pre ++ rest)
        = (lp ++ (Cliconf.run_commands send loads crc rest).1,
           Except.map (fun rs => rp ++ rs)
             (Cliconf.run_commands send loads crc rest).2) := by
  intro pre
  induction pre with
  | nil =>
    intro rest lp rp h
    rw [show Cliconf.run_commands send loads crc ([] : List Cliconf.RCmd)
        = (([] : List String), Except.ok ([] : List (α ⊕ String))) from rfl] at h
    injection h with h1 h2
    injection h2 with h2
    subst h1
    subst h2
    cases hres : Cliconf.run_commands send loads crc rest with
    | mk lg res =>
      cases res with
      | ok rs => simp [hres, Except.map]
      | error e2 => simp [hres, Except.map]
  | cons c cs ih =>
    intro rest lp rp h
    cases hro : Cliconf.runOne send loads crc c with
    | mk log res1 =>
      cases res1 with
      | error e =>
        simp [Cliconf.run_commands, hro] at h
      | ok r =>
        cases ht : Cliconf.run_commands send loads crc cs with
        | mk l2 res2 =>
          cases res2 with
          | error e2 =>
            simp [Cliconf.run_commands, hro, ht, Except.map] at h
          | ok rs2 =>
            simp only [Cliconf.run_commands, hro, ht, Except.map] at h
            injection h with h1 h2
            injection h2 with h2
            have hIH := ih rest l2 rs2 ht
            have hgoal : Cliconf.run_commands send loads crc ((c :: cs) ++ rest)
                = (log ++ (Cliconf.run_commands send loads crc (cs ++ rest)).1,
                   Except.map (fun rs => r :: rs)
                     (Cliconf.run_commands send loads crc (cs ++ rest)).2) := by
              simp [Cliconf.run_commands, hro]
            rw [hgoal, hIH]
            subst h1
            subst h2
            cases hres : Cliconf.run_commands send loads crc rest with
            | mk lg res =>
              cases res with
              | ok rs => simp [Except.map]
              | error e3 => simp [Except.map]

/-- C5 counterexample: a malformed output enum on the second command is
claimed to fail before any transport call, but run_commands validates each
command only when it is about to be sent: the failure arrives after the first
command has already been issued — one transport invocation, not zero. -/
theorem run_commands_invalid_output_after_send :
    Cliconf.run_commands (fun _ => Except.ok "resp") (fun _ => (none : Option Nat)) true
        [⟨"show a", none, none⟩, ⟨"show b", some "xml", none⟩]
      = (["show a"], Except.error (Cliconf.output_err_msg "xml"))
    ∧ (["show a"] : List String) ≠ [] := by
  exact ⟨rfl, by decide⟩

/-- C5 amended: a malformed diff_match or diff_replace value makes get_diff
fail with a ValueError whose message lists the valid values, before any
configuration object is built and independently of every external
collaborator (get_diff performs no transport calls at all); a malformed
output value on a command makes run_commands fail with a ValueError listing
the valid values before that command is sent, but the commands preceding it
in the list have already been issued (zero invocations only when the
malformed command comes first). -/
theorem invalid_enum_values_fail_fast {α : Type}
    (load : Option String → List String)
    (difference : List String → String → Option (List String) → Option String →
      String → String → List String)
    (dumps : List String → String)
    (candidate running : Option String) (mbad mgood rbad : String)
    (ig : Option (List String)) (path : Option String)
    (send : String → Except String String) (loads : String → Option α)
    (crc : Bool) (pre : List Cliconf.RCmd) (c : Cliconf.RCmd)
    (post : List Cliconf.RCmd) (lp : List String) (rp : List (α ⊕ String))
    (o : String)
    (hm : mbad ∉ Cliconf.option_values_diff_match)
    (hmg : mgood ∈ Cliconf.option_values_diff_match)
    (hr : rbad ∉ Cliconf.option_values_diff_replace)
    (hpre : Cliconf.run_commands send loads crc pre = (lp, Except.ok rp))
    (ho : c.output = some o) (ho2 : o ≠ "")
    (hov : o ∉ Cliconf.option_values_output) :
    (Cliconf.get_diff load difference dumps candidate running mbad ig path rbad
        = Except.error (Cliconf.match_err_msg mbad)
      ∧ pyIn (pyJoin ", " Cliconf.option_values_diff_match)
          (Cliconf.match_err_msg mbad) = true)
    ∧ (Cliconf.get_diff load difference dumps candidate running mgood ig path rbad
        = Except.error (Cliconf.replace_err_msg rbad)
      ∧ pyIn (pyJoin ", " Cliconf.option_values_diff_replace)
          (Cliconf.replace_err_msg rbad) = true)
    ∧ (Cliconf.run_commands send loads crc (pre ++ c :: post)
        = (lp, Except.error (Cliconf.output_err_msg o))
      ∧ pyIn (pyJoin "," Cliconf.option_values_output)
          (Cliconf.output_err_msg o) = true) := by
  refine ⟨⟨?_, ?_⟩, ⟨?_, ?_⟩, ⟨?_, ?_⟩⟩
  · simp [Cliconf.get_diff, Cliconf.supports_generate_diff, hm]
  · exact pyIn_append_self _ _
  · simp [Cliconf.get_diff, Cliconf.supports_generate_diff, hmg, hr]
  · exact pyIn_append_self _ _
  · have hone : Cliconf.run_commands send loads crc (c :: post)
        = ([], Except.error (Cliconf.output_err_msg o)) := by
      simp [Cliconf.run_commands, Cliconf.runOne, Cliconf.effCommand, pyTruthy, ho, ho2,
        Cliconf.get_command_with_output, hov]
    rw [run_commands_append send loads crc pre (c :: post) lp rp hpre, hone]
    simp [Except.map]
  · exact pyIn_append_self _ _

/-- C5 witness: concrete instances of the amended statement — bad enum values
"fuzzy", "partial" and "xml"; the transport log shows exactly the one command
that preceded the malformed one. -/
theorem invalid_enum_values_fail_fast_witness :
    Cliconf.get_diff (fun _ => []) (fun _ _ _ _ _ _ => []) (pyJoin "\n")
        (some "x") none "fuzzy" none none "partial"
      = Except.error (Cliconf.match_err_msg "fuzzy")
    ∧ Cliconf.get_diff (fun _ => []) (fun _ _ _ _ _ _ => []) (pyJoin "\n")
        (some "x") none "line" none none "partial"
      = Except.error (Cliconf.replace_err_msg "partial")
    ∧ Cliconf.run_commands (fun _ => Except.ok " resp ") (fun _ => (none : Option Nat))
        true [⟨"show a", none, none⟩, ⟨"show b", some "xml", none⟩]
      = (["show a"], Except.error (Cliconf.output_err_msg "xml")) := by
  have h := invalid_enum_values_fail_fast (fun _ => []) (fun _ _ _ _ _ _ => [])
    (pyJoin "\n") (some "x") none "fuzzy" "line" "partial" none none
    (fun _ => Except.ok " resp ") (fun _ => (none : Option Nat)) true
    [⟨"show a", none, none⟩] ⟨"show b", some "xml", none⟩ []
    ["show a"] [Sum.inr "resp"] "xml"
    (by decide) (by decide) (by decide) rfl rfl (by decide) (by decide)
  exact ⟨h.1.1, h.2.1.1, h.2.2.1⟩

/-- C8: a transport-level connection failure while sending one command
propagates to the caller when check_rc is true, aborting the run right after
the failed invocation; with check_rc false it is not raised and the failure
text goes through the same json-or-strip post-processing as every ordinary
response to become the response entry for that command. -/
theorem run_commands_connection_failure {α : Type}
    (send : String → Except String String) (loads : String → Option α)
    (pre : List Cliconf.RCmd) (c : Cliconf.RCmd) (post : List Cliconf.RCmd)
    (e s : String) (lp lp2 lpost : List String)
    (rp rp2 rpost : List (α ⊕ String))
    (hc : Cliconf.effCommand c = Except.ok s)
    (hs : send s = Except.error e)
    (h1 : Cliconf.run_commands send loads true pre = (lp, Except.ok rp))
    (h2 : Cliconf.run_commands send loads false pre = (lp2, Except.ok rp2))
    (h3 : Cliconf.run_commands send loads false post = (lpost, Except.ok rpost)) :
    Cliconf.run_commands send loads true (pre ++ c :: post)
      = (lp ++ [s], Except.error e)
    ∧ Cliconf.run_commands send loads false (pre ++ c :: post)
      = (lp2 ++ s :: lpost,
         Except.ok (rp2 ++ Cliconf.postprocess loads e :: rpost)) := by
  constructor
  · have hco : Cliconf.run_commands send loads true (c :: post)
        = ([s], Except.error e) := by
      simp [Cliconf.run_commands, Cliconf.runOne, hc, hs]
    rw [run_commands_append send loads true pre (c :: post) lp rp h1, hco]
    simp [Except.map]
  · have hco : Cliconf.run_commands send loads false (c :: post)
        = (s :: lpost, Except.ok (Cliconf.postprocess loads e :: rpost)) := by
      simp [Cliconf.run_commands, Cliconf.runOne, hc, hs, h3, Except.map]
    rw [run_commands_append send loads false pre (c :: post) lp2 rp2 h2, hco]
    simp [Except.map]

/-- C8 witness: the middle of three commands hits a connection failure with
the text " boom "; with check_rc the run aborts right after that invocation,
without check_rc the stripped failure text becomes the middle response. -/
theorem run_commands_connection_failure_witness :
    Cliconf.run_commands
        (fun t => if t = "show b" then Except.error " boom " else Except.ok "ok")
        (fun _ => (none : Option Nat)) true
        [⟨"show a", none, none⟩, ⟨"show b", none, none⟩, ⟨"show c", none, none⟩]
      = (["show a", "show b"], Except.error " boom ")
    ∧ Cliconf.run_commands
        (fun t => if t = "show b" then Except.error " boom " else Except.ok "ok")
        (fun _ => (none : Option Nat)) false
        [⟨"show a", none, none⟩, ⟨"show b", none, none⟩, ⟨"show c", none, none⟩]
      = (["show a", "show b", "show c"],
         Except.ok [Sum.inr "ok", Sum.inr "boom", Sum.inr "ok"]) := by
  have h := run_commands_connection_failure
    (fun t => if t = "show b" then Except.error " boom " else Except.ok "ok")
    (fun _ => (none : Option Nat))
    [⟨"show a", none, none⟩] ⟨"show b", none, none⟩ [⟨"show c", none, none⟩]
    " boom " "show b" ["show a"] ["show a"] ["show c"]
    [Sum.inr "ok"] [Sum.inr "ok"] [Sum.inr "ok"]
    rfl rfl rfl rfl rfl
  exact ⟨h.1, h.2⟩

theorem execLoop_succ (send : Nat → List String) (m : String) (fuel a : Nat)
    (conds : List AosCommand.Conditional) :
    AosCommand.execLoop send m (fuel + 1) a conds
      = (if (AosCommand.stepConds m (send a) conds).isEmpty
         then (a + 1, AosCommand.stepConds m (send a) conds)
         else AosCommand.execLoop send m fuel (a + 1)
           (AosCommand.stepConds m (send a) conds)) := rfl

theorem execLoop_le (send : Nat → List String) (m : String) :
    ∀ (fuel a : Nat) (conds : List AosCommand.Conditional),
      (AosCommand.execLoop send m fuel a conds).1 ≤ a + fuel := by
  intro fuel
  induction fuel with
  | zero =>
    intro a conds
    exact Nat.le_add_right a 0
  | succ f ih =>
    intro a conds
    rw [execLoop_succ]
    by_cases h : (AosCommand.stepConds m (send a) conds).isEmpty = true
    · simp only [h, if_true]
      omega
    · rw [if_neg h]
      exact le_trans (ih (a + 1) _) (by omega)

theorem parse_commands_loop_eq (cmds : List AosCommand.ModCmd) :
    AosCommand.parse_commands_loop cmds
      = (cmds.filter (fun c => pyStartsWith c.command "show"),
         (cmds.filter (fun c => !(pyStartsWith c.command "show"))).map
           AosCommand.warnFor) := by
  induction cmds with
  | nil => rfl
  | cons c rest ih =>
    by_cases hc : pyStartsWith c.command "show" = true
    · simp [AosCommand.parse_commands_loop, List.filter_cons, hc, ih]
    · simp only [Bool.not_eq_true] at hc
      simp [AosCommand.parse_commands_loop, List.filter_cons, hc, ih]

/-- C3: with match "all" a conditional stays pending after a pass exactly
when it was pending and evaluated false on that batch (so each conditional is
removed independently on the first attempt where it is true, and need not
stay true later); with match "any" one true conditional empties the pending
set; the loop returns successfully at the attempt whose pass empties the set;
and in the concrete scenario — retries 2, match "all", one conditional true
on attempt 1 and the other only on attempt 2 — main succeeds after exactly 2
attempts. -/
theorem aos_command_retry_loop_match (send : Nat → List String)
    (c1 c2 : AosCommand.Conditional)
    (h1 : c1.eval (send 0) = true) (h2 : c2.eval (send 0) = false)
    (h3 : c2.eval (send 1) = true) :
    (∀ (rs : List String) (conds : List AosCommand.Conditional)
        (c : AosCommand.Conditional),
        c ∈ AosCommand.stepConds "all" rs conds ↔ c ∈ conds ∧ c.eval rs = false)
    ∧ (∀ (rs : List String) (conds : List AosCommand.Conditional),
        (∃ c ∈ conds, c.eval rs = true) → AosCommand.stepConds "any" rs conds = [])
    ∧ (∀ (m : String) (fuel a : Nat) (conds : List AosCommand.Conditional),
        AosCommand.stepConds m (send a) conds = [] →
        AosCommand.execLoop send m (fuel + 1) a conds = (a + 1, []))
    ∧ AosCommand.mainRun send "all" [c1, c2] 2 = AosCommand.MainOutcome.success 2 := by
  refine ⟨?_, ?_, ?_, ?_⟩
  · intro rs conds c
    simp [AosCommand.stepConds, List.mem_filter]
  · intro rs conds hex
    obtain ⟨c, hc, he⟩ := hex
    have hany : conds.any (fun x => x.eval rs) = true :=
      List.any_eq_true.mpr ⟨c, hc, he⟩
    simp [AosCommand.stepConds, hany]
  · intro m fuel a conds h
    rw [execLoop_succ, h]
    simp
  · have s0 : AosCommand.stepConds "all" (send 0) [c1, c2] = [c2] := by
      simp [AosCommand.stepConds, List.filter_cons, h1, h2]
    have s1 : AosCommand.stepConds "all" (send 1) [c2] = [] := by
      simp [AosCommand.stepConds, List.filter_cons, h3]
    simp only [AosCommand.mainRun]
    rw [execLoop_succ, s0]
    simp only [List.isEmpty, if_false, Bool.false_eq_true]
    rw [show (0 : Nat) + 1 = 1 from rfl]
    rw [show (2 : Nat) = 1 + 1 from rfl, execLoop_succ, s1]
    simp

/-- C3 witness: the concrete scenario — responses grow by one per attempt,
one conditional is satisfied from attempt 1, the other only from attempt 2;
the loop succeeds after exactly 2 attempts. -/
theorem aos_command_retry_loop_match_witness :
    AosCommand.mainRun AosCommand.csendA "all"
        [AosCommand.condTrue0, AosCommand.condTrue1] 2
      = AosCommand.MainOutcome.success 2 :=
  (aos_command_retry_loop_match AosCommand.csendA AosCommand.condTrue0
    AosCommand.condTrue1 (by decide) (by decide) (by decide)).2.2.2

/-- C4: for every run of the loop the number of attempts performed is at most
retries + 1, and with retries 0 and a conditional that is never true main
fails after exactly 1 attempt with the fixed UnsatisfiedConditions message
and a failed_conditions list holding the raw source text of that
conditional. -/
theorem aos_command_retry_bounds (send : Nat → List String) (matchP : String)
    (conds : List AosCommand.Conditional) (c : AosCommand.Conditional)
    (retries : Nat) (hnever : ∀ rs, c.eval rs = false) :
    (AosCommand.execLoop send matchP (retries + 1) 0 conds).1 ≤ retries + 1
    ∧ AosCommand.mainRun send "all" [c] 0
      = AosCommand.MainOutcome.failed 1 AosCommand.unsatMsg [c.raw] := by
  constructor
  · simpa using execLoop_le send matchP (retries + 1) 0 conds
  · have s0 : AosCommand.stepConds "all" (send 0) [c] = [c] := by
      simp [AosCommand.stepConds, List.filter_cons, hnever]
    simp only [AosCommand.mainRun]
    rw [execLoop_succ, s0]
    simp [AosCommand.execLoop]

/-- C4 witness: with retries 0 and the never-true conditional, exactly one
attempt is performed and the failure carries the raw conditional text. -/
theorem aos_command_retry_bounds_witness :
    (AosCommand.execLoop AosCommand.csendB "all" 1 0 [AosCommand.condNever]).1 ≤ 1
    ∧ AosCommand.mainRun AosCommand.csendB "all" [AosCommand.condNever] 0
      = AosCommand.MainOutcome.failed 1 AosCommand.unsatMsg
          ["result[0] contains z"] := by
  have h := aos_command_retry_bounds AosCommand.csendB "all" [AosCommand.condNever]
    AosCommand.condNever 0 (fun _ => rfl)
  exact ⟨h.1, h.2⟩

/-- C7: in check mode parse_commands keeps exactly the commands whose text
begins with "show", drops every other command and records one warning per
dropped command (in scan order), all before the execution loop ever sees the
list; outside check mode the list passes through untouched. -/
theorem parse_commands_check_mode (cmds : List AosCommand.ModCmd) :
    AosCommand.parse_commands true cmds
      = (cmds.filter (fun c => pyStartsWith c.command "show"),
         (cmds.filter (fun c => !(pyStartsWith c.command "show"))).map
           AosCommand.warnFor)
    ∧ AosCommand.parse_commands false cmds = (cmds, []) :=
  ⟨parse_commands_loop_eq cmds, rfl⟩

/-- C10: vlan_range_to_list is claimed to return the vlan ids sorted in
ascending numerical order, but numerical_sort applies `list(set(...))` after
sorting, and CPython set iteration is hash-table order: for "8,1" the table
holds 8 in slot 0 and 1 in slot 1, so the function returns [8, 1], not
[1, 8] ascending — contradicting the docstring of numerical_sort ("Sorts list
of integers that are digits in numerical order"). -/
theorem vlan_range_to_list_not_sorted :
    AosUtils.vlan_range_to_list "8,1" = some [8, 1] ∧
      some [8, 1] ≠ some ([1, 8] : List Int) := by
  constructor
  · decide
  · decide

end AleAos
